import Mathlib

/-!
Verification of the MOON reaction-profit application.

The frontend code (`src/src/App.tsx` and the reaction tree graph component)
is embedded shallowly below: TypeScript numbers become rationals, arrays
become lists, and the locale-dependent formatting helpers become function
parameters.  The reaction analyzer lives in the Rust backend, which is not
part of the available sources; it is modelled from the specification
(section 4.4) and marked as such in the doc comments.

The file lists all definitions first and all theorems afterwards.
-/

/-! ## Data model shared by the frontend and the analyzer -/

/-- Source tag of a sourcing-tree node, from the `SourceType` union in
`App.tsx`: a material extracted from a moon, bought on the market, produced
by an intermediate reaction, or the final output. -/
inductive SourceType where
  | moon
  | buy
  | react
  | output
deriving DecidableEq, Repr

/-- Recursive sourcing tree, from the `ReactionTreeNode` interface in
`App.tsx`.  The record fields of the interface become constructor
arguments; accessor functions below recover them. -/
inductive ReactionTreeNode where
  | mk
    (name : String)
    (id : Nat)
    (quantity : ℚ)
    (source : SourceType)
    (unit_price : ℚ)
    (total_price : ℚ)
    (reaction_name : Option String)
    (children : List ReactionTreeNode)

def ReactionTreeNode.name : ReactionTreeNode → String
  | .mk n _ _ _ _ _ _ _ => n

def ReactionTreeNode.id : ReactionTreeNode → Nat
  | .mk _ i _ _ _ _ _ _ => i

def ReactionTreeNode.quantity : ReactionTreeNode → ℚ
  | .mk _ _ q _ _ _ _ _ => q

def ReactionTreeNode.source : ReactionTreeNode → SourceType
  | .mk _ _ _ s _ _ _ _ => s

def ReactionTreeNode.unit_price : ReactionTreeNode → ℚ
  | .mk _ _ _ _ u _ _ _ => u

def ReactionTreeNode.total_price : ReactionTreeNode → ℚ
  | .mk _ _ _ _ _ t _ _ => t

def ReactionTreeNode.reaction_name : ReactionTreeNode → Option String
  | .mk _ _ _ _ _ _ r _ => r

def ReactionTreeNode.children : ReactionTreeNode → List ReactionTreeNode
  | .mk _ _ _ _ _ _ _ c => c

/-- One line of the input breakdown, from the `InputBreakdown` interface in
`App.tsx`. -/
structure InputBreakdown where
  name : String
  quantity : ℚ
  unit_price : ℚ
  total_price : ℚ
  from_moon : Bool
deriving DecidableEq, Repr

/-- One analysis row, from the `ReactionProfit` interface in `App.tsx`. -/
structure ReactionProfit where
  formula_id : Nat
  formula_name : String
  output_name : String
  output_id : Nat
  output_quantity : ℚ
  output_unit_price : ℚ
  output_value : ℚ
  input_cost : ℚ
  profit : ℚ
  margin : ℚ
  inputs : List InputBreakdown
  uses_user_materials : Bool
  reaction_tree : Option ReactionTreeNode

/-! ## Result Ranker (`getSortedResults` in `App.tsx`) -/

/-- Sort key, from the `SortField` union type in `App.tsx`. -/
inductive SortField where
  | output_name
  | output_quantity
  | input_cost
  | output_value
  | profit
  | margin
deriving DecidableEq, Repr

/-- Sort direction, from the `SortDirection` union type in `App.tsx`. -/
inductive SortDirection where
  | asc
  | desc
deriving DecidableEq, Repr

/-- Lexicographic three-way comparison of names, the model of
`String.prototype.localeCompare` used in `getSortedResults`. -/
def localeCompare (a b : String) : ℚ :=
  if a < b then -1 else if b < a then 1 else 0

/-- Field comparison of `getSortedResults`: `localeCompare` on the output
name, numeric difference `a[sortField] - b[sortField]` on every other
field. -/
def sortComparison (f : SortField) (a b : ReactionProfit) : ℚ :=
  match f with
  | .output_name => localeCompare a.output_name b.output_name
  | .output_quantity => a.output_quantity - b.output_quantity
  | .input_cost => a.input_cost - b.input_cost
  | .output_value => a.output_value - b.output_value
  | .profit => a.profit - b.profit
  | .margin => a.margin - b.margin

/-- Directed comparator of `getSortedResults`: the raw comparison for
ascending order, its negation for descending order. -/
def comparator (f : SortField) (d : SortDirection) (a b : ReactionProfit) : ℚ :=
  match d with
  | .asc => sortComparison f a b
  | .desc => -(sortComparison f a b)

/-- The Result Ranker, `getSortedResults` in `App.tsx`: a stable sort of a
copy of the results list under the directed comparator.  JavaScript
`Array.prototype.sort` is stable, which the merge sort models. -/
def getSortedResults (f : SortField) (d : SortDirection)
    (results : List ReactionProfit) : List ReactionProfit :=
  results.mergeSort (fun a b => decide (comparator f d a b ≤ 0))

/-- Key order induced by a sort field, used to state what the comparator
decides. -/
def keyLe (f : SortField) (a b : ReactionProfit) : Prop :=
  match f with
  | .output_name => a.output_name ≤ b.output_name
  | .output_quantity => a.output_quantity ≤ b.output_quantity
  | .input_cost => a.input_cost ≤ b.input_cost
  | .output_value => a.output_value ≤ b.output_value
  | .profit => a.profit ≤ b.profit
  | .margin => a.margin ≤ b.margin

/-- Key order induced by a sort field together with a direction. -/
def dirKeyLe (f : SortField) (d : SortDirection) (a b : ReactionProfit) : Prop :=
  match d with
  | .asc => keyLe f a b
  | .desc => keyLe f b a

/-- Numeric value of a non-name sort field. -/
def numValue (f : SortField) (r : ReactionProfit) : ℚ :=
  match f with
  | .output_name => 0
  | .output_quantity => r.output_quantity
  | .input_cost => r.input_cost
  | .output_value => r.output_value
  | .profit => r.profit
  | .margin => r.margin

/-- Minimal profit row used for concrete ranking tests: only the output
name and the margin field are distinguished. -/
def mkProfitRow (nm : String) (mg : ℚ) : ReactionProfit :=
  { formula_id := 0, formula_name := "", output_name := nm, output_id := 0,
    output_quantity := 0, output_unit_price := 0, output_value := 0,
    input_cost := 0, profit := 0, margin := mg, inputs := [],
    uses_user_materials := false, reaction_tree := none }

def rowGamma : ReactionProfit := mkProfitRow "Gamma" 10
def rowAlpha : ReactionProfit := mkProfitRow "Alpha" (-5)
def rowBeta : ReactionProfit := mkProfitRow "Beta" 40

/-! ## Reaction tree graph (`treeToFlow` in the graph component) -/

/-- The payload of a React Flow node produced by `treeToFlow`. -/
structure FlowNode where
  id : String
  label : String
  source : SourceType
  quantity : ℚ
  price : String
deriving DecidableEq, Repr

/-- A React Flow edge produced by `treeToFlow`. -/
structure FlowEdge where
  id : String
  source : String
  target : String
  animated : Bool
deriving DecidableEq, Repr

mutual

/-- Accumulator pass of `treeToFlow`: pushes one flow node for the visited
tree node, one edge towards the parent when there is one, and then walks
the children with the fresh node id as parent. -/
def treeToFlowAux (fmt : ℚ → String) :
    ReactionTreeNode → Option String → List FlowNode × List FlowEdge × Nat →
      List FlowNode × List FlowEdge × Nat
  | .mk nm _ qty src _ tp _ children, parentId, (nodes, edges, ctr) =>
    let nodeId := "node-" ++ toString ctr
    let nodes1 := nodes ++ [⟨nodeId, nm, src, qty, fmt tp⟩]
    let edges1 :=
      match parentId with
      | some pid =>
          edges ++ [⟨"edge-" ++ pid ++ "-" ++ nodeId, nodeId, pid,
            src == SourceType.react⟩]
      | none => edges
    treeToFlowList fmt children (some nodeId) (nodes1, edges1, ctr + 1)

/-- Sequential walk over a list of children, as the `for` loop in
`treeToFlow`. -/
def treeToFlowList (fmt : ℚ → String) :
    List ReactionTreeNode → Option String → List FlowNode × List FlowEdge × Nat →
      List FlowNode × List FlowEdge × Nat
  | [], _, acc => acc
  | c :: cs, parentId, acc =>
      treeToFlowList fmt cs parentId (treeToFlowAux fmt c parentId acc)

end

/-- The `treeToFlow` conversion of the graph component: flow nodes and
edges for a whole sourcing tree, starting with empty accumulators and
counter 0 and no parent. -/
def treeToFlow (fmt : ℚ → String) (tree : ReactionTreeNode) :
    List FlowNode × List FlowEdge :=
  let r := treeToFlowAux fmt tree none ([], [], 0)
  (r.1, r.2.1)

mutual

/-- Number of nodes of a sourcing tree. -/
def countNodes : ReactionTreeNode → Nat
  | .mk _ _ _ _ _ _ _ children => 1 + countNodesList children

/-- Total number of nodes of a list of sourcing trees. -/
def countNodesList : List ReactionTreeNode → Nat
  | [] => 0
  | c :: cs => countNodes c + countNodesList cs

end

/-- Well-formed flow edge: its id records its target (the parent) and its
source (the child), in that order. -/
def edgeWf (e : FlowEdge) : Prop :=
  e.id = "edge-" ++ e.target ++ "-" ++ e.source

/-- Two-node sample sourcing tree: an output node with one moon child. -/
def sampleTree : ReactionTreeNode :=
  .mk "Y" 2 1 .output 1 1 none [.mk "X" 1 2 .moon 1 2 none []]

/-! ## Text instructions (`generateTextInstructions` in `App.tsx`) -/

/-- A collected material line: name, quantity and formatted price, as the
objects pushed on `moonMaterials` and `buyMaterials`. -/
structure MatEntry where
  name : String
  qty : ℚ
  price : String

/-- A collected reaction step, as the objects pushed on `reactions`. -/
structure ReactEntry where
  output : String
  inputs : List String
  qty : ℚ

mutual

/-- The `collectFromTree` closure of `generateTextInstructions`: walks the
tree in pre-order and collects moon materials, purchased materials and
reaction steps (only for react or output nodes with children). -/
def collectFromTree (fmtI fmtN : ℚ → String) :
    ReactionTreeNode → List MatEntry × List MatEntry × List ReactEntry
  | .mk nm _ qty src _ tp _ children =>
    let rest := collectFromList fmtI fmtN children
    match src with
    | .moon => (⟨nm, qty, fmtI tp⟩ :: rest.1, rest.2.1, rest.2.2)
    | .buy => (rest.1, ⟨nm, qty, fmtI tp⟩ :: rest.2.1, rest.2.2)
    | .react | .output =>
        if 0 < children.length then
          (rest.1, rest.2.1,
            ⟨nm, children.map (fun c => c.name ++ " x" ++ fmtN c.quantity), qty⟩
              :: rest.2.2)
        else rest

/-- Pre-order collection over a list of children. -/
def collectFromList (fmtI fmtN : ℚ → String) :
    List ReactionTreeNode → List MatEntry × List MatEntry × List ReactEntry
  | [] => ([], [], [])
  | c :: cs =>
    let hc := collectFromTree fmtI fmtN c
    let ht := collectFromList fmtI fmtN cs
    (hc.1 ++ ht.1, hc.2.1 ++ ht.2.1, hc.2.2 ++ ht.2.2)

end

/-- Numbered rendering of the reaction steps: each step yields the numbered
inputs line followed by the arrow line naming the produced output. -/
def numberSteps (fmtN : ℚ → String) : Nat → List ReactEntry → List String
  | _, [] => []
  | i, r :: rest =>
      ("  " ++ toString (i + 1) ++ ". " ++ String.intercalate " + " r.inputs)
        :: ("     -> " ++ r.output ++ " x" ++ fmtN r.qty)
        :: numberSteps fmtN (i + 1) rest

/-- The EXTRACT section of the instructions: header, one line per
collected moon material and a blank separator, present only when the
collected list is non-empty. -/
def moonSection (fmtN : ℚ → String) (ms : List MatEntry) : List String :=
  if 0 < ms.length then
    "EXTRACT FROM MOONS:" ::
      ms.map (fun m => "  " ++ m.name ++ " x" ++ fmtN m.qty ++ " (worth " ++ m.price ++ ")")
      ++ [""]
  else []

/-- The PURCHASE section of the instructions: header, one line per
collected purchased material and a blank separator, present only when the
collected list is non-empty. -/
def buySection (fmtN : ℚ → String) (bs : List MatEntry) : List String :=
  if 0 < bs.length then
    "PURCHASE:" ::
      bs.map (fun m => "  " ++ m.name ++ " x" ++ fmtN m.qty ++ " for " ++ m.price)
      ++ [""]
  else []

/-- The REACT section of the instructions: header, the numbered steps over
the reversed collection order (the code reverses the pre-order collection
so base reactions come first) and a blank separator, present only when the
collected list is non-empty. -/
def reactSection (fmtN : ℚ → String) (rs : List ReactEntry) : List String :=
  if 0 < rs.length then
    "REACT (in order):" :: numberSteps fmtN 0 rs.reverse ++ [""]
  else []

/-- The `generateTextInstructions` function of `App.tsx`, with the two
locale-dependent formatting helpers (`formatIsk` and `toLocaleString`)
abstracted as parameters. -/
def generateTextInstructions (fmtI fmtN : ℚ → String)
    (tree : ReactionTreeNode) : List String :=
  let collected := collectFromTree fmtI fmtN tree
  moonSection fmtN collected.1 ++ buySection fmtN collected.2.1
    ++ reactSection fmtN collected.2.2
    ++ ["SELL: " ++ tree.name ++ " x" ++ fmtN tree.quantity ++ " for "
      ++ fmtI tree.total_price]

mutual

/-- Names of the react steps of a sourcing tree in pre-order: a react or
output node with children contributes its name before the contributions of
its children, and siblings contribute left to right. -/
def reactNamesPre : ReactionTreeNode → List String
  | .mk nm _ _ src _ _ _ children =>
    (match src with
     | .react => if 0 < children.length then [nm] else []
     | .output => if 0 < children.length then [nm] else []
     | .moon => []
     | .buy => []) ++ reactNamesPreList children

/-- Names of the react steps of a list of trees, in pre-order. -/
def reactNamesPreList : List ReactionTreeNode → List String
  | [] => []
  | c :: cs => reactNamesPre c ++ reactNamesPreList cs

end

/-- Three-node sample sourcing tree with two react steps: an output root,
a react child and a moon leaf. -/
def stepTree : ReactionTreeNode :=
  .mk "Top" 3 1 .output 10 10 (some "TopR")
    [.mk "Mid" 2 2 .react 4 8 (some "MidR")
      [.mk "Base" 1 6 .moon 1 6 none []]]

mutual

/-- Per-source node counts of a sourcing tree: moon nodes, buy nodes, and
react or output nodes with a non-empty children list. -/
def sourceCounts : ReactionTreeNode → Nat × Nat × Nat
  | .mk _ _ _ src _ _ _ children =>
    let rest := sourceCountsList children
    match src with
    | .moon => (rest.1 + 1, rest.2.1, rest.2.2)
    | .buy => (rest.1, rest.2.1 + 1, rest.2.2)
    | .react | .output =>
        (rest.1, rest.2.1, rest.2.2 + (if 0 < children.length then 1 else 0))

/-- Per-source node counts summed over a list of sourcing trees. -/
def sourceCountsList : List ReactionTreeNode → Nat × Nat × Nat
  | [] => (0, 0, 0)
  | c :: cs =>
    let hc := sourceCounts c
    let ht := sourceCountsList cs
    (hc.1 + ht.1, hc.2.1 + ht.2.1, hc.2.2 + ht.2.2)

end

/-! ## Application state and the GO handler (`handleGo` in `App.tsx`) -/

/-- One parsed material line, from the `MaterialEntry` interface in
`App.tsx`. -/
structure MaterialEntry where
  name : String
  quantity : ℚ
  item_id : Nat
  system_id : Nat
  region_id : Nat
  additional_id : Nat

/-- One loaded moon, from the `MoonComposition` interface in `App.tsx`. -/
structure MoonComposition where
  name : String
  materials : List MaterialEntry

/-- One UI tab, from the `Tab` interface in `App.tsx`. -/
structure Tab where
  id : String
  name : String
  results : Option (List ReactionProfit)

/-- The React component state of `App` that `handleGo` reads and writes. -/
structure AppState where
  moons : List MoonComposition
  errorMessage : Option String
  tabs : List Tab
  activeTab : String
  isAnalyzing : Bool

/-- The GO handler, `handleGo` in `App.tsx`.  The nondeterministic
`Date.now()` is the `now` parameter and the backend `analyze_reactions`
call is the `analyzeResult` parameter.  The returned boolean records
whether the analyze operation was invoked.  On success `isAnalyzing` is
reset by the `finally` block. -/
def handleGo (s : AppState) (now : Nat) (analyzeResult : List ReactionProfit) :
    AppState × Bool :=
  if s.moons.length = 0 then
    ({ s with errorMessage := some "Add some moons first before analyzing" }, false)
  else
    let newTabId := "analysis-" ++ toString now
    let count := (s.tabs.filter (fun t => t.id.startsWith "analysis")).length
    let newTab : Tab :=
      { id := newTabId, name := "Analysis " ++ toString (count + 1),
        results := some analyzeResult }
    ({ s with
        errorMessage := none
        tabs := s.tabs ++ [newTab]
        activeTab := newTabId
        isAnalyzing := false }, true)

/-- Initial UI state with no moons loaded and only the home tab. -/
def emptyHomeState : AppState :=
  { moons := []
    errorMessage := none
    tabs := [{ id := "home", name := "Home", results := none }]
    activeTab := "home"
    isAnalyzing := false }

/-! ## Reaction Analyzer, modelled from the specification

The analyzer runs in the Rust backend, which is not among the available
sources; the definitions in this section are modelled from the
specification, section 4.4, as stated in each doc comment. -/

/-- Modelled from the spec: a required or produced quantity of one
material (`MaterialQuantity`, spec section 3). -/
structure MaterialQuantity where
  material : Nat
  qty : ℚ

/-- Modelled from the spec: a conversion formula with an identifier, a
name, input quantities and a single output quantity (spec section 3). -/
structure Formula where
  id : Nat
  name : String
  inputs : List MaterialQuantity
  output : MaterialQuantity

/-- Modelled from the spec: quantity of a material held in the Inventory
snapshot, zero when absent. -/
def lookupQty (inv : List (Nat × ℚ)) (m : Nat) : ℚ :=
  match inv.find? (fun p => p.1 == m) with
  | some p => p.2
  | none => 0

/-- Modelled from the spec: the Price Oracle `priceOf(materialId)`, which
may report the price as unavailable. -/
def priceOf (prices : List (Nat × ℚ)) (m : Nat) : Option ℚ :=
  (prices.find? (fun p => p.1 == m)).map (fun p => p.2)

/-- Modelled from the spec: `formulasProducing(materialId)` of the Formula
Catalog, in catalog iteration order. -/
def formulasProducing (cat : List Formula) (m : Nat) : List Formula :=
  cat.filter (fun f => f.output.material == m)

/-- Sum of the total prices of a list of sourcing nodes. -/
def sumTotals (l : List ReactionTreeNode) : ℚ :=
  (l.map ReactionTreeNode.total_price).sum

/-- First candidate of minimal cost: an earlier candidate wins ties, which
encodes the spec preference holdings, then reaction, then purchase. -/
def pickMin : List (ℚ × ReactionTreeNode) → Option (ℚ × ReactionTreeNode)
  | [] => none
  | c :: rest =>
    match pickMin rest with
    | none => some c
    | some b => if c.1 ≤ b.1 then some c else some b

/-- Sequencing of optional resolution results: the whole list fails when
any input resolution fails. -/
def seqOpt {α : Type} : List (Option α) → Option (List α)
  | [] => some []
  | none :: _ => none
  | some a :: rest => (seqOpt rest).map (fun l => a :: l)

/-- Modelled from the spec: the number of catalog formulas whose identifier
is not on the current resolution path. -/
def unvisitedCount (cat : List Formula) (visited : List Nat) : Nat :=
  (cat.filter (fun f => !(visited.contains f.id))).length

/-- Modelled from the spec: the holdings candidate, available when some of
the material is held; it is priced at the market sell price (opportunity
cost), so its availability also needs the price. -/
def holdCand (inv prices : List (Nat × ℚ)) (names : Nat → String) (m : Nat)
    (reqQty : ℚ) : List (ℚ × ReactionTreeNode) :=
  match priceOf prices m with
  | some p =>
      if 0 < lookupQty inv m then
        [(reqQty * p, .mk (names m) m reqQty .moon p (reqQty * p) none [])]
      else []
  | none => []

/-- Modelled from the spec: the purchase candidate, available whenever the
market price is. -/
def buyCand (prices : List (Nat × ℚ)) (names : Nat → String) (m : Nat)
    (reqQty : ℚ) : List (ℚ × ReactionTreeNode) :=
  match priceOf prices m with
  | some p => [(reqQty * p, .mk (names m) m reqQty .buy p (reqQty * p) none [])]
  | none => []

/-- Modelled from the spec: the reaction candidate built from a producing
formula and its resolved children; its total price is the sum of the
children and it is unavailable when some child failed to resolve. -/
def reactCand (names : Nat → String) (m : Nat) (reqQty : ℚ) (g : Formula) :
    Option (List ReactionTreeNode) → List (ℚ × ReactionTreeNode)
  | some children =>
      [(sumTotals children,
        .mk (names m) m reqQty .react (sumTotals children / reqQty)
          (sumTotals children) (some g.name) children)]
  | none => []

/-- Modelled from the spec (section 4.4): `resolveMaterial(materialId,
requiredQty, visitedFormulaIds)`.  The candidates are gathered in the spec
preference order holdings, reaction, purchase, and the cheapest one wins
with ties resolved towards that order.  The first unvisited producing
formula is evaluated recursively with its identifier added to the visited
path; each required child quantity is the per-run input quantity scaled by
requiredQty over the formula output quantity.  The extra fuel argument only
provides a structurally decreasing measure for the recursion; the visited
set is what actually shrinks the reachable catalog, and the theorem
`analyze_cycle_safe` below proves the result independent of the fuel once
the fuel exceeds the number of unvisited formulas. -/
def resolveMaterial (cat : List Formula) (inv prices : List (Nat × ℚ))
    (names : Nat → String) :
    Nat → List Nat → Nat → ℚ → Option ReactionTreeNode
  | 0, _, _, _ => none
  | fuel + 1, visited, m, reqQty =>
    let rc : List (ℚ × ReactionTreeNode) :=
      match (formulasProducing cat m).find? (fun g => !(visited.contains g.id)) with
      | some g =>
          reactCand names m reqQty g (seqOpt (g.inputs.map (fun i =>
            resolveMaterial cat inv prices names fuel (g.id :: visited)
              i.material (i.qty * (reqQty / g.output.qty)))))
      | none => []
    (pickMin (holdCand inv prices names m reqQty ++ rc
        ++ buyCand prices names m reqQty)).map (fun c => c.2)

/-- Modelled from the spec: the input breakdown row shown for one resolved
top-level input. -/
def toBreakdown (c : ReactionTreeNode) : InputBreakdown :=
  { name := c.name, quantity := c.quantity, unit_price := c.unit_price,
    total_price := c.total_price, from_moon := c.source == SourceType.moon }

mutual

/-- Modelled from the spec: whether any node of the tree is sourced from
holdings. -/
def usesHoldings : ReactionTreeNode → Bool
  | .mk _ _ _ src _ _ _ children =>
      (src == SourceType.moon) || usesHoldingsList children

/-- Modelled from the spec: whether any node of a list of trees is sourced
from holdings. -/
def usesHoldingsList : List ReactionTreeNode → Bool
  | [] => false
  | c :: cs => usesHoldings c || usesHoldingsList cs

end

/-- Modelled from the spec (section 4.4, steps 1 to 4): top-level
evaluation of one formula for one full run.  The formula is excluded
(`none`) when its output has no market price or when some input is
unresolvable; otherwise profit is value minus cost and margin is profit
over value times 100, zero when the value is zero, and the root sourcing
node is tagged as the final output. -/
def analyzeFormula (cat : List Formula) (inv prices : List (Nat × ℚ))
    (names : Nat → String) (f : Formula) : Option ReactionProfit :=
  match priceOf prices f.output.material with
  | none => none
  | some outPrice =>
    match seqOpt (f.inputs.map (fun i =>
        resolveMaterial cat inv prices names (cat.length + 1) [f.id]
          i.material (i.qty * (f.output.qty / f.output.qty)))) with
    | none => none
    | some children =>
      let q := f.output.qty
      let value := q * outPrice
      let cost := sumTotals children
      some
        { formula_id := f.id
          formula_name := f.name
          output_name := names f.output.material
          output_id := f.output.material
          output_quantity := q
          output_unit_price := outPrice
          output_value := value
          input_cost := cost
          profit := value - cost
          margin := if value = 0 then 0 else (value - cost) / value * 100
          inputs := children.map toBreakdown
          uses_user_materials := usesHoldingsList children
          reaction_tree := some (.mk (names f.output.material)
            f.output.material q .output outPrice value (some f.name) children) }

/-- Modelled from the spec: `analyze` evaluates every catalog formula as a
top-level candidate and keeps the successful evaluations, in catalog
order. -/
def analyze (cat : List Formula) (inv prices : List (Nat × ℚ))
    (names : Nat → String) : List ReactionProfit :=
  cat.filterMap (fun f => analyzeFormula cat inv prices names f)

/-! ### Concrete analyzer inputs used by the testable-property checks -/

/-- Material names for the holdings case: material 1 is X, material 2 is
Y. -/
def xyNames : Nat → String := fun m => if m == 1 then "X" else "Y"

/-- Catalog with one formula turning 10000 X into 1 Y. -/
def xyCat : List Formula := [⟨7, "Y Reaction", [⟨1, 10000⟩], ⟨2, 1⟩⟩]

/-- Inventory holding 10000 units of X. -/
def xyInv : List (Nat × ℚ) := [(1, 10000)]

/-- Prices: X sells for 100 per unit and Y for 2000000. -/
def xyPrices : List (Nat × ℚ) := [(1, 100), (2, 2000000)]

/-- The expected analysis row of the holdings case. -/
def xyRow : ReactionProfit :=
  { formula_id := 7
    formula_name := "Y Reaction"
    output_name := "Y"
    output_id := 2
    output_quantity := 1
    output_unit_price := 2000000
    output_value := 2000000
    input_cost := 1000000
    profit := 1000000
    margin := 50
    inputs := [{ name := "X", quantity := 10000, unit_price := 100, total_price := 1000000, from_moon := true }]
    uses_user_materials := true
    reaction_tree := some (.mk "Y" 2 1 .output 2000000 2000000
      (some "Y Reaction") [.mk "X" 1 10000 .moon 100 1000000 none []]) }

/-- Material names for the cyclic case. -/
def cycNames : Nat → String := fun _ => "M"

/-- Cyclic catalog: formula F needs material 1, produced only by formula A,
whose input is produced only by formula B, whose own input is again the
output of A, closing the cycle; no input material is held or priced. -/
def cycCat : List Formula :=
  [⟨100, "F", [⟨1, 1⟩], ⟨10, 1⟩⟩,
   ⟨101, "A", [⟨2, 1⟩], ⟨1, 1⟩⟩,
   ⟨102, "B", [⟨1, 1⟩], ⟨2, 1⟩⟩]

/-- Prices of the cyclic case: only the final output, material 10, is
priced. -/
def cycPrices : List (Nat × ℚ) := [(10, 5)]

/-! ## Theorems about the Result Ranker -/

theorem localeCompare_nonpos_iff (a b : String) : localeCompare a b ≤ 0 ↔ a ≤ b := by
  unfold localeCompare
  split_ifs with h1 h2
  · simp [le_of_lt h1]
  · simp only [show ¬((1 : ℚ) ≤ 0) by norm_num, false_iff]
    exact not_le.mpr h2
  · simp [le_of_not_lt h2]

theorem sortComparison_nonpos_iff (f : SortField) (a b : ReactionProfit) :
    sortComparison f a b ≤ 0 ↔ keyLe f a b := by
  cases f <;> simp [sortComparison, keyLe, sub_nonpos, localeCompare_nonpos_iff]

theorem localeCompare_swap (a b : String) : localeCompare b a = -(localeCompare a b) := by
  unfold localeCompare
  rcases lt_trichotomy a b with h | h | h
  · rw [if_neg (asymm h), if_pos h, if_pos h]; try norm_num
  · subst h
    rw [if_neg (lt_irrefl a), if_neg (lt_irrefl a)]; try norm_num
  · rw [if_pos h, if_neg (asymm h), if_pos h]; try norm_num

theorem sortComparison_antisymm (f : SortField) (a b : ReactionProfit) :
    sortComparison f b a = -(sortComparison f a b) := by
  cases f <;> simp only [sortComparison, neg_sub]
  exact localeCompare_swap _ _

theorem comparator_nonpos_iff (f : SortField) (d : SortDirection) (a b : ReactionProfit) :
    comparator f d a b ≤ 0 ↔ dirKeyLe f d a b := by
  show _ ↔ (match d with | SortDirection.asc => keyLe f a b | SortDirection.desc => keyLe f b a)
  cases d
  · exact sortComparison_nonpos_iff f a b
  · simp only [comparator, neg_nonpos]
    rw [show (0 ≤ sortComparison f a b) ↔ sortComparison f b a ≤ 0 by
      rw [sortComparison_antisymm f a b]; simp]
    exact sortComparison_nonpos_iff f b a

theorem keyLe_total (f : SortField) (a b : ReactionProfit) : keyLe f a b ∨ keyLe f b a := by
  cases f <;> exact le_total _ _

theorem keyLe_trans (f : SortField) (a b c : ReactionProfit)
    (h1 : keyLe f a b) (h2 : keyLe f b c) : keyLe f a c := by
  cases f <;> exact le_trans h1 h2

theorem cmpLe_total (f : SortField) (d : SortDirection) (a b : ReactionProfit) :
    (decide (comparator f d a b ≤ 0) || decide (comparator f d b a ≤ 0)) = true := by
  rw [Bool.or_eq_true, decide_eq_true_eq, decide_eq_true_eq,
    comparator_nonpos_iff, comparator_nonpos_iff]
  cases d
  · exact keyLe_total f a b
  · exact keyLe_total f b a

theorem cmpLe_trans (f : SortField) (d : SortDirection) (a b c : ReactionProfit)
    (h1 : decide (comparator f d a b ≤ 0) = true)
    (h2 : decide (comparator f d b c ≤ 0) = true) :
    decide (comparator f d a c ≤ 0) = true := by
  rw [decide_eq_true_eq, comparator_nonpos_iff] at h1 h2 ⊢
  cases d
  · exact keyLe_trans f a b c h1 h2
  · exact keyLe_trans f c b a h2 h1

theorem sorted_getSortedResults (f : SortField) (d : SortDirection)
    (l : List ReactionProfit) :
    (getSortedResults f d l).Pairwise (dirKeyLe f d) := by
  have h := @List.sorted_mergeSort ReactionProfit
    (fun a b => decide (comparator f d a b ≤ 0))
    (cmpLe_trans f d) (cmpLe_total f d) l
  exact h.imp (fun hab => (comparator_nonpos_iff f d _ _).mp (of_decide_eq_true hab))

/-- C1: with margins 10, -5 and 40, ranking by margin in descending
direction yields margins in the order 40, 10, -5, and ranking by output
name in ascending direction orders the rows lexicographically by output
name. -/
theorem ranker_concrete_orders :
    (getSortedResults .margin .desc [rowGamma, rowAlpha, rowBeta]).map
        ReactionProfit.margin = [40, 10, -5]
    ∧ (getSortedResults .output_name .asc [rowGamma, rowAlpha, rowBeta]).map
        ReactionProfit.output_name = ["Alpha", "Beta", "Gamma"] := by
  have hAG : ("Alpha" : String).data < ("Gamma" : String).data := by decide
  have hAB : ("Alpha" : String).data < ("Beta" : String).data := by decide
  have hBG : ("Beta" : String).data < ("Gamma" : String).data := by decide
  have hGA : ¬ ("Gamma" : String).data < ("Alpha" : String).data := by decide
  have hBA : ¬ ("Beta" : String).data < ("Alpha" : String).data := by decide
  have hGB : ¬ ("Gamma" : String).data < ("Beta" : String).data := by decide
  constructor <;>
    norm_num [getSortedResults, List.mergeSort, List.merge, comparator,
      sortComparison, localeCompare, rowGamma, rowAlpha, rowBeta, mkProfitRow,
      hAG, hAB, hBG, hGA, hBA, hGB]

/-- C2: the Ranker accepts exactly the six sort fields with an ascending or
descending direction; sorting by output name orders lexicographically on
the name, and sorting by any other field orders numerically on the value of
that field. -/
theorem ranker_fields_and_comparisons :
    (∀ f : SortField, f = SortField.output_name ∨ f = SortField.output_quantity ∨
      f = SortField.input_cost ∨ f = SortField.output_value ∨
      f = SortField.profit ∨ f = SortField.margin)
    ∧ (∀ d : SortDirection, d = SortDirection.asc ∨ d = SortDirection.desc)
    ∧ (∀ l, (getSortedResults .output_name .asc l).Pairwise
        (fun a b => a.output_name ≤ b.output_name))
    ∧ (∀ l, (getSortedResults .output_name .desc l).Pairwise
        (fun a b => b.output_name ≤ a.output_name))
    ∧ (∀ (f : SortField) l, f ≠ SortField.output_name →
        (getSortedResults f .asc l).Pairwise
          (fun a b => numValue f a ≤ numValue f b))
    ∧ (∀ (f : SortField) l, f ≠ SortField.output_name →
        (getSortedResults f .desc l).Pairwise
          (fun a b => numValue f b ≤ numValue f a)) := by
  refine ⟨?_, ?_, ?_, ?_, ?_, ?_⟩
  · intro f; cases f <;> simp
  · intro d; cases d <;> simp
  · intro l
    exact (sorted_getSortedResults .output_name .asc l).imp (fun h => h)
  · intro l
    exact (sorted_getSortedResults .output_name .desc l).imp (fun h => h)
  · intro f l hf
    refine (sorted_getSortedResults f .asc l).imp (fun h => ?_)
    cases f
    · exact absurd rfl hf
    all_goals exact h
  · intro f l hf
    refine (sorted_getSortedResults f .desc l).imp (fun h => ?_)
    cases f
    · exact absurd rfl hf
    all_goals exact h

/-- Witness for C2 at the profit field on a concrete singleton list. -/
theorem ranker_fields_and_comparisons_witness :
    (getSortedResults .profit .asc [rowGamma]).Pairwise
      (fun a b => numValue .profit a ≤ numValue .profit b) :=
  ranker_fields_and_comparisons.2.2.2.2.1 .profit [rowGamma] (by decide)

/-- C3: the sort is stable: two records that compare equal under the
selected field keep, in the output, the relative order they had in the
input list. -/
theorem ranker_sort_stable (f : SortField) (d : SortDirection)
    (l : List ReactionProfit) (a b : ReactionProfit)
    (hsub : List.Sublist [a, b] l) (heq : sortComparison f a b = 0) :
    List.Sublist [a, b] (getSortedResults f d l) := by
  apply List.mergeSort_stable_pair (cmpLe_trans f d) (cmpLe_total f d) _ hsub
  rw [decide_eq_true_eq]
  cases d <;> simp [comparator, heq]

/-- Witness for C3: two rows with equal profit stay in input order. -/
theorem ranker_sort_stable_witness :
    List.Sublist [rowGamma, rowAlpha]
      (getSortedResults .profit .asc [rowGamma, rowAlpha]) :=
  ranker_sort_stable .profit .asc [rowGamma, rowAlpha] rowGamma rowAlpha
    (List.Sublist.refl _)
    (by norm_num [sortComparison, rowGamma, rowAlpha, mkProfitRow])

/-- C4: ranking is side-effect-free: it returns a fresh list that is a
permutation of the input, so the input list is untouched. -/
theorem ranker_perm (f : SortField) (d : SortDirection)
    (l : List ReactionProfit) : (getSortedResults f d l).Perm l :=
  List.mergeSort_perm l _

/-! ## Theorems about the tree graph conversion -/

mutual

theorem treeToFlowAux_spec (fmt : ℚ → String) (t : ReactionTreeNode) :
    ∀ (pid : String) (acc : List FlowNode × List FlowEdge × Nat),
      (treeToFlowAux fmt t (some pid) acc).1.length = acc.1.length + countNodes t
      ∧ (treeToFlowAux fmt t (some pid) acc).2.1.length
          = acc.2.1.length + countNodes t
      ∧ ((∀ e ∈ acc.2.1, edgeWf e) →
          ∀ e ∈ (treeToFlowAux fmt t (some pid) acc).2.1, edgeWf e) := by
  match t with
  | .mk nm i qty src up tp rn children =>
    intro pid acc
    obtain ⟨nodes, edges, ctr⟩ := acc
    have h := treeToFlowList_spec fmt children (("node-" ++ toString ctr))
      (nodes ++ [⟨"node-" ++ toString ctr, nm, src, qty, fmt tp⟩],
        edges ++ [⟨"edge-" ++ pid ++ "-" ++ ("node-" ++ toString ctr),
          "node-" ++ toString ctr, pid, src == SourceType.react⟩], ctr + 1)
    simp only [treeToFlowAux, countNodes]
    refine ⟨?_, ?_, ?_⟩
    · rw [h.1]; simp [List.length_append]; omega
    · rw [h.2.1]; simp [List.length_append]; omega
    · intro hwf
      refine h.2.2 ?_
      intro e he
      rcases List.mem_append.mp he with he | he
      · exact hwf e he
      · rw [List.mem_singleton.mp he]
        rfl

theorem treeToFlowList_spec (fmt : ℚ → String) (cs : List ReactionTreeNode) :
    ∀ (pid : String) (acc : List FlowNode × List FlowEdge × Nat),
      (treeToFlowList fmt cs (some pid) acc).1.length
          = acc.1.length + countNodesList cs
      ∧ (treeToFlowList fmt cs (some pid) acc).2.1.length
          = acc.2.1.length + countNodesList cs
      ∧ ((∀ e ∈ acc.2.1, edgeWf e) →
          ∀ e ∈ (treeToFlowList fmt cs (some pid) acc).2.1, edgeWf e) := by
  match cs with
  | [] =>
    intro pid acc
    refine ⟨?_, ?_, ?_⟩
    · simp [treeToFlowList, countNodesList]
    · simp [treeToFlowList, countNodesList]
    · intro hwf
      simpa [treeToFlowList] using hwf
  | c :: rest =>
    intro pid acc
    have hc := treeToFlowAux_spec fmt c pid acc
    have hr := treeToFlowList_spec fmt rest pid (treeToFlowAux fmt c (some pid) acc)
    simp only [treeToFlowList, countNodesList]
    refine ⟨?_, ?_, ?_⟩
    · rw [hr.1, hc.1]; omega
    · rw [hr.2.1, hc.2.1]; omega
    · intro hwf
      exact hr.2.2 (hc.2.2 hwf)

end

/-- C9: `treeToFlow` emits one flow node per tree node and one edge per
non-root tree node, so a tree with n nodes yields n flow nodes and n - 1
edges; each emitted edge points from the child (its source) to the parent
(its target), as witnessed by its generated id. -/
theorem treeToFlow_counts (fmt : ℚ → String) (t : ReactionTreeNode) :
    (treeToFlow fmt t).1.length = countNodes t
    ∧ (treeToFlow fmt t).2.length = countNodes t - 1
    ∧ ∀ e ∈ (treeToFlow fmt t).2,
        e.id = "edge-" ++ e.target ++ "-" ++ e.source := by
  match t with
  | .mk nm i qty src up tp rn children =>
    have h := treeToFlowList_spec fmt children ("node-" ++ toString 0)
      ([⟨"node-" ++ toString 0, nm, src, qty, fmt tp⟩], [], 1)
    have hun : treeToFlow fmt (.mk nm i qty src up tp rn children)
        = (let r := treeToFlowList fmt children (some ("node-" ++ toString 0))
            ([⟨"node-" ++ toString 0, nm, src, qty, fmt tp⟩], [], 1);
           (r.1, r.2.1)) := rfl
    rw [hun]
    refine ⟨?_, ?_, ?_⟩
    · rw [h.1]; simp [countNodes]; try omega
    · rw [h.2.1]; simp [countNodes]
    · exact h.2.2 (by intro e he; simp at he)

/-- Witness for C9 on the two-node sample tree: two flow nodes, one edge,
and the single edge is well formed. -/
theorem treeToFlow_counts_witness :
    (treeToFlow (fun _ => "p") sampleTree).1.length = 2
    ∧ (treeToFlow (fun _ => "p") sampleTree).2.length = 1
    ∧ ((⟨"edge-node-0-node-1", "node-1", "node-0", false⟩ : FlowEdge).id
        = "edge-" ++ "node-0" ++ "-" ++ "node-1") :=
  ⟨(treeToFlow_counts (fun _ => "p") sampleTree).1,
    (treeToFlow_counts (fun _ => "p") sampleTree).2.1,
    (treeToFlow_counts (fun _ => "p") sampleTree).2.2
      ⟨"edge-node-0-node-1", "node-1", "node-0", false⟩ (by decide)⟩

/-! ## Theorems about the text instructions -/

mutual

theorem collectFromTree_len (fmtI fmtN : ℚ → String) (t : ReactionTreeNode) :
    (collectFromTree fmtI fmtN t).1.length = (sourceCounts t).1
    ∧ (collectFromTree fmtI fmtN t).2.1.length = (sourceCounts t).2.1
    ∧ (collectFromTree fmtI fmtN t).2.2.length = (sourceCounts t).2.2 := by
  match t with
  | .mk nm i qty src up tp rn children =>
    have h := collectFromList_len fmtI fmtN children
    cases src <;>
      simp only [collectFromTree, sourceCounts] <;>
      (try split_ifs) <;>
      simp [h.1, h.2.1, h.2.2]

theorem collectFromList_len (fmtI fmtN : ℚ → String) (cs : List ReactionTreeNode) :
    (collectFromList fmtI fmtN cs).1.length = (sourceCountsList cs).1
    ∧ (collectFromList fmtI fmtN cs).2.1.length = (sourceCountsList cs).2.1
    ∧ (collectFromList fmtI fmtN cs).2.2.length = (sourceCountsList cs).2.2 := by
  match cs with
  | [] => simp [collectFromList, sourceCountsList]
  | c :: rest =>
    have hc := collectFromTree_len fmtI fmtN c
    have ht := collectFromList_len fmtI fmtN rest
    simp [collectFromList, sourceCountsList, hc.1, hc.2.1, hc.2.2,
      ht.1, ht.2.1, ht.2.2]

end

theorem numberSteps_length (fmtN : ℚ → String) (rs : List ReactEntry) :
    ∀ i, (numberSteps fmtN i rs).length = 2 * rs.length := by
  induction rs with
  | nil => intro i; simp [numberSteps]
  | cons r rest ih =>
    intro i
    simp [numberSteps, ih (i + 1)]
    omega

theorem moonSection_length (fmtN : ℚ → String) (ms : List MatEntry) :
    (moonSection fmtN ms).length = if ms.length = 0 then 0 else ms.length + 2 := by
  unfold moonSection
  by_cases h : 0 < ms.length
  · rw [if_pos h, if_neg (by omega)]
    simp
  · rw [if_neg h, if_pos (by omega)]
    rfl

theorem buySection_length (fmtN : ℚ → String) (bs : List MatEntry) :
    (buySection fmtN bs).length = if bs.length = 0 then 0 else bs.length + 2 := by
  unfold buySection
  by_cases h : 0 < bs.length
  · rw [if_pos h, if_neg (by omega)]
    simp
  · rw [if_neg h, if_pos (by omega)]
    rfl

theorem reactSection_length (fmtN : ℚ → String) (rs : List ReactEntry) :
    (reactSection fmtN rs).length = if rs.length = 0 then 0 else 2 * rs.length + 2 := by
  unfold reactSection
  by_cases h : 0 < rs.length
  · rw [if_pos h, if_neg (by omega)]
    simp [numberSteps_length]
  · rw [if_neg h, if_pos (by omega)]
    rfl

mutual

theorem collectFromTree_outputs (fmtI fmtN : ℚ → String) (t : ReactionTreeNode) :
    (collectFromTree fmtI fmtN t).2.2.map ReactEntry.output = reactNamesPre t := by
  match t with
  | .mk nm i qty src up tp rn children =>
    have h := collectFromList_outputs fmtI fmtN children
    cases src <;>
      simp only [collectFromTree, reactNamesPre] <;>
      (try split_ifs) <;>
      simp [h]

theorem collectFromList_outputs (fmtI fmtN : ℚ → String) (cs : List ReactionTreeNode) :
    (collectFromList fmtI fmtN cs).2.2.map ReactEntry.output = reactNamesPreList cs := by
  match cs with
  | [] => simp [collectFromList, reactNamesPreList]
  | c :: rest =>
    have hc := collectFromTree_outputs fmtI fmtN c
    have ht := collectFromList_outputs fmtI fmtN rest
    simp [collectFromList, reactNamesPreList, hc, ht]

end

/-- C10: the text instructions contain one EXTRACT line per moon node, one
PURCHASE line per buy node and one two-line numbered REACT step per react
or output node with children, each group extended by its header line and a
separating blank line when non-empty; the collected steps name exactly the
react and output nodes with children in pre-order, and the emitted REACT
section numbers them over the reverse of that order, so base reactions come
first; and the instructions always end with the SELL line naming the root
node, its quantity and its total price. -/
theorem generateText_structure (fmtI fmtN : ℚ → String) (t : ReactionTreeNode) :
    (generateTextInstructions fmtI fmtN t).length
        = (if (sourceCounts t).1 = 0 then 0 else (sourceCounts t).1 + 2)
          + (if (sourceCounts t).2.1 = 0 then 0 else (sourceCounts t).2.1 + 2)
          + (if (sourceCounts t).2.2 = 0 then 0 else 2 * (sourceCounts t).2.2 + 2)
          + 1
    ∧ (generateTextInstructions fmtI fmtN t).getLast?
        = some ("SELL: " ++ t.name ++ " x" ++ fmtN t.quantity ++ " for "
            ++ fmtI t.total_price)
    ∧ (collectFromTree fmtI fmtN t).2.2.map ReactEntry.output = reactNamesPre t
    ∧ (0 < (sourceCounts t).2.2 →
        generateTextInstructions fmtI fmtN t
          = moonSection fmtN (collectFromTree fmtI fmtN t).1
            ++ buySection fmtN (collectFromTree fmtI fmtN t).2.1
            ++ ("REACT (in order):"
                :: numberSteps fmtN 0 ((collectFromTree fmtI fmtN t).2.2.reverse))
            ++ ["", "SELL: " ++ t.name ++ " x" ++ fmtN t.quantity ++ " for "
                ++ fmtI t.total_price]) := by
  have h := collectFromTree_len fmtI fmtN t
  refine ⟨?_, ?_, collectFromTree_outputs fmtI fmtN t, ?_⟩
  · simp only [generateTextInstructions, List.length_append, List.length_cons,
      List.length_nil, moonSection_length, buySection_length,
      reactSection_length, h.1, h.2.1, h.2.2]
  · simp only [generateTextInstructions]
    rw [show ∀ (a b c : List String) (s : String),
        a ++ b ++ c ++ [s] = (a ++ b ++ c) ++ [s] from by intros; simp]
    exact List.getLast?_concat _
  · intro hpos
    have hrs : 0 < (collectFromTree fmtI fmtN t).2.2.length := by
      rw [h.2.2]; exact hpos
    simp only [generateTextInstructions, reactSection]
    rw [if_pos hrs]
    simp

/-- Witness for C10 on the two-step sample tree: the emitted REACT section
numbers the steps over the reversed pre-order collection, directly followed
by the blank separator and the SELL line. -/
theorem generateText_structure_witness :
    generateTextInstructions (fun _ => "p") (fun _ => "q") stepTree
      = moonSection (fun _ => "q")
          (collectFromTree (fun _ => "p") (fun _ => "q") stepTree).1
        ++ buySection (fun _ => "q")
          (collectFromTree (fun _ => "p") (fun _ => "q") stepTree).2.1
        ++ ("REACT (in order):" :: numberSteps (fun _ => "q") 0
            ((collectFromTree (fun _ => "p") (fun _ => "q") stepTree).2.2.reverse))
        ++ ["", "SELL: " ++ stepTree.name ++ " x" ++ (fun _ => "q") stepTree.quantity
            ++ " for " ++ (fun _ => "p") stepTree.total_price] :=
  (generateText_structure (fun _ => "p") (fun _ => "q") stepTree).2.2.2 (by decide)

/-! ## Theorems about the GO handler -/

/-- C8: with no moons loaded, the GO handler sets the error message, does
not invoke analyze, and leaves the tab list (and the rest of the state)
unchanged. -/
theorem handleGo_empty_moons (s : AppState) (now : Nat)
    (analyzeResult : List ReactionProfit) (h : s.moons = []) :
    handleGo s now analyzeResult =
      ({ s with errorMessage := some "Add some moons first before analyzing" },
        false) := by
  unfold handleGo
  rw [if_pos (by rw [h]; rfl)]

/-- Witness for C8 on a concrete empty state. -/
theorem handleGo_empty_moons_witness :
    handleGo emptyHomeState 0 [] =
      ({ emptyHomeState with
          errorMessage := some "Add some moons first before analyzing" }, false) :=
  handleGo_empty_moons emptyHomeState 0 [] rfl

/-! ## Theorems about the Reaction Analyzer model -/

theorem length_filter_le_of_imp {α : Type} (p q : α → Bool) (l : List α)
    (h : ∀ x, p x = true → q x = true) :
    (l.filter p).length ≤ (l.filter q).length := by
  induction l with
  | nil => simp
  | cons a l ih =>
    cases hp : p a
    · cases hq : q a <;> simp [List.filter_cons, hp, hq] <;> omega
    · have hq := h a hp
      simp [List.filter_cons, hp, hq]
      omega

theorem filter_unvisited_imp (visited : List Nat) (gid : Nat) :
    ∀ x : Formula, (!((gid :: visited).contains x.id)) = true →
      (!(visited.contains x.id)) = true := by
  intro x hx
  rw [Bool.not_eq_true'] at hx ⊢
  rw [List.contains_cons] at hx
  exact (Bool.or_eq_false_iff.mp hx).2

theorem unvisited_cons_lt (cat : List Formula) (visited : List Nat) (g : Formula)
    (hg : g ∈ cat) (hnv : visited.contains g.id = false) :
    unvisitedCount cat (g.id :: visited) < unvisitedCount cat visited := by
  unfold unvisitedCount
  induction cat with
  | nil => cases hg
  | cons f rest ih =>
    have hmono := length_filter_le_of_imp
      (fun f => !((g.id :: visited).contains f.id))
      (fun f => !(visited.contains f.id)) rest (filter_unvisited_imp visited g.id)
    rcases List.mem_cons.mp hg with rfl | hmem
    · rw [List.filter_cons, List.filter_cons,
        if_neg (by simp [List.contains_cons]),
        if_pos (by rw [Bool.not_eq_true']; exact hnv)]
      simp only [List.length_cons]
      omega
    · rw [List.filter_cons, List.filter_cons]
      by_cases hq : (!(visited.contains f.id)) = true
      · rw [if_pos hq]
        by_cases hp : (!((g.id :: visited).contains f.id)) = true
        · rw [if_pos hp]
          simp only [List.length_cons]
          exact Nat.succ_lt_succ (ih hmem)
        · rw [if_neg hp]
          simp only [List.length_cons]
          exact Nat.lt_succ_of_lt (ih hmem)
      · rw [if_neg hq, if_neg (fun hp => hq (filter_unvisited_imp visited g.id f hp))]
        exact ih hmem

theorem resolveMaterial_fuel_irrel (cat : List Formula)
    (inv prices : List (Nat × ℚ)) (names : Nat → String) :
    ∀ (f1 f2 : Nat) (visited : List Nat) (m : Nat) (reqQty : ℚ),
      unvisitedCount cat visited < f1 → unvisitedCount cat visited < f2 →
      resolveMaterial cat inv prices names f1 visited m reqQty
        = resolveMaterial cat inv prices names f2 visited m reqQty := by
  intro f1
  induction f1 with
  | zero =>
    intro f2 visited m reqQty h1 _
    exact absurd h1 (Nat.not_lt_zero _)
  | succ a ih =>
    intro f2 visited m reqQty h1 h2
    cases f2 with
    | zero => exact absurd h2 (Nat.not_lt_zero _)
    | succ b =>
      simp only [resolveMaterial]
      cases hfind : (formulasProducing cat m).find?
          (fun g => !(visited.contains g.id)) with
      | none => rfl
      | some g =>
        have hg1 : g ∈ formulasProducing cat m := List.mem_of_find?_eq_some hfind
        have hg2 := List.find?_some hfind
        have hgcat : g ∈ cat := (List.mem_filter.mp hg1).1
        have hgnv : visited.contains g.id = false := by
          simpa using hg2
        have hlt : unvisitedCount cat (g.id :: visited) < unvisitedCount cat visited :=
          unvisited_cons_lt cat visited g hgcat hgnv
        have hmap : (g.inputs.map (fun i =>
            resolveMaterial cat inv prices names a (g.id :: visited)
              i.material (i.qty * (reqQty / g.output.qty))))
          = (g.inputs.map (fun i =>
            resolveMaterial cat inv prices names b (g.id :: visited)
              i.material (i.qty * (reqQty / g.output.qty)))) := by
          refine List.map_congr_left ?_
          intro i _
          exact ih b (g.id :: visited) i.material (i.qty * (reqQty / g.output.qty))
            (lt_of_lt_of_le hlt (Nat.lt_succ_iff.mp h1))
            (lt_of_lt_of_le hlt (Nat.lt_succ_iff.mp h2))
        simp only [hmap]

/-- Evaluation of the holdings case: the single formula resolves its only
input from holdings at opportunity cost and yields the expected row. -/
theorem analyze_xy_eval : analyze xyCat xyInv xyPrices xyNames = [xyRow] := by
  norm_num [analyze, analyzeFormula, resolveMaterial, xyCat, xyInv, xyPrices,
    xyNames, xyRow, priceOf, lookupQty, formulasProducing, holdCand, buyCand,
    reactCand, pickMin, seqOpt, sumTotals, toBreakdown, usesHoldingsList,
    usesHoldings, List.filterMap, List.find?, List.filter,
    ReactionTreeNode.total_price, ReactionTreeNode.name,
    ReactionTreeNode.quantity, ReactionTreeNode.unit_price,
    ReactionTreeNode.source,
    show ((1 : Nat) == 1) = true from rfl,
    show ((1 : Nat) == 2) = false from rfl,
    show ((2 : Nat) == 2) = true from rfl,
    show ((2 : Nat) == 1) = false from rfl]

/-- Evaluation of the cyclic case: the top-level formula F is excluded
because its only resolution path runs into the A-B cycle with no external
source, and A and B are excluded for lack of an output price. -/
theorem analyze_cyc_eval : analyze cycCat [] cycPrices cycNames = [] := by
  norm_num [analyze, analyzeFormula, resolveMaterial, cycCat, cycPrices,
    cycNames, priceOf, lookupQty, formulasProducing, holdCand, buyCand,
    reactCand, pickMin, seqOpt, sumTotals, List.filterMap, List.find?,
    List.filter, List.contains_cons,
    show ((10 : Nat) == 1) = false from rfl,
    show ((10 : Nat) == 2) = false from rfl,
    show ((10 : Nat) == 10) = true from rfl,
    show ((1 : Nat) == 1) = true from rfl,
    show ((1 : Nat) == 2) = false from rfl,
    show ((2 : Nat) == 1) = false from rfl,
    show ((2 : Nat) == 2) = true from rfl,
    show ((101 : Nat) == 100) = false from rfl,
    show ((101 : Nat) == 101) = true from rfl,
    show ((101 : Nat) == 102) = false from rfl,
    show ((102 : Nat) == 100) = false from rfl,
    show ((102 : Nat) == 101) = false from rfl]

/-- C5: every reported row satisfies profit = value minus cost and margin =
profit over value times 100, with margin 0 when the output value is 0. -/
theorem analyze_profit_margin (cat : List Formula) (inv prices : List (Nat × ℚ))
    (names : Nat → String) (r : ReactionProfit)
    (hr : r ∈ analyze cat inv prices names) :
    r.profit = r.output_value - r.input_cost
    ∧ r.margin = (if r.output_value = 0 then 0
        else r.profit / r.output_value * 100) := by
  obtain ⟨f, _, heq⟩ := List.mem_filterMap.mp hr
  unfold analyzeFormula at heq
  split at heq
  · exact absurd heq (by simp)
  · split at heq
    · exact absurd heq (by simp)
    · rw [Option.some.injEq] at heq
      subst heq
      exact ⟨rfl, rfl⟩

/-- Witness for C5 at the row produced by the holdings case. -/
theorem analyze_profit_margin_witness :
    xyRow.profit = xyRow.output_value - xyRow.input_cost
    ∧ xyRow.margin = (if xyRow.output_value = 0 then 0
        else xyRow.profit / xyRow.output_value * 100) :=
  analyze_profit_margin xyCat xyInv xyPrices xyNames xyRow
    (by rw [analyze_xy_eval]; exact List.mem_singleton.mpr rfl)

/-- C6: in the holdings case (10000 X held, X at 100, one formula turning
10000 X into one Y at 2000000), analyze reports input cost 1000000 sourced
from holdings at opportunity cost, output value 2000000, profit 1000000,
margin 50 and usesUserMaterials true. -/
theorem analyze_holdings_concrete :
    analyze xyCat xyInv xyPrices xyNames = [xyRow]
    ∧ xyRow.input_cost = 1000000
    ∧ xyRow.output_value = 2000000
    ∧ xyRow.profit = 1000000
    ∧ xyRow.margin = 50
    ∧ xyRow.uses_user_materials = true
    ∧ xyRow.inputs.map (fun b => (b.from_moon, b.unit_price, b.total_price))
        = [(true, 100, 1000000)] := by
  refine ⟨analyze_xy_eval, ?_, ?_, ?_, ?_, ?_, ?_⟩ <;> simp [xyRow]

/-- C7: the analyzer terminates on every catalog: its value is independent
of the structural fuel once the fuel exceeds the number of formulas not yet
on the visited path, so the visited set bounds the recursion; analyze never
reports more rows than the catalog has formulas; and in the synthetic
cyclic catalog the top-level formula whose only resolution path traverses
the cycle with no external source is excluded rather than failing the
run. -/
theorem analyze_cycle_safe :
    (∀ (cat : List Formula) (inv prices : List (Nat × ℚ)) (names : Nat → String)
        (f1 f2 : Nat) (visited : List Nat) (m : Nat) (reqQty : ℚ),
        unvisitedCount cat visited < f1 → unvisitedCount cat visited < f2 →
        resolveMaterial cat inv prices names f1 visited m reqQty
          = resolveMaterial cat inv prices names f2 visited m reqQty)
    ∧ (∀ (cat : List Formula) (inv prices : List (Nat × ℚ))
        (names : Nat → String),
        (analyze cat inv prices names).length ≤ cat.length)
    ∧ analyze cycCat [] cycPrices cycNames = [] :=
  ⟨fun cat inv prices names => resolveMaterial_fuel_irrel cat inv prices names,
    fun cat _ _ _ => List.length_filterMap_le _ cat,
    analyze_cyc_eval⟩

/-- Witness for C7: fuel independence at the concrete holdings catalog with
fuels 2 and 3. -/
theorem analyze_cycle_safe_witness :
    resolveMaterial xyCat xyInv xyPrices xyNames 2 [] 1 10000
      = resolveMaterial xyCat xyInv xyPrices xyNames 3 [] 1 10000 :=
  analyze_cycle_safe.1 xyCat xyInv xyPrices xyNames 2 3 [] 1 10000
    (by norm_num [unvisitedCount, xyCat, List.filter])
    (by norm_num [unvisitedCount, xyCat, List.filter])
